import Mathlib

/-!
Verification of the npm-http-server resolution-and-serving pipeline.

The definitions below are a shallow embedding of `src/modules/index.js`
(the request handler and file resolver) and of the embedded tree-building
module (`generateDirectoryTree` and its helpers).  Filesystem and network
collaborators are modelled as explicit function parameters: a stat is a
pure function from a path to a `FSStat`, a directory listing is a function
to `Except String (List String)` (the `String` being the rejection error),
and so on.  Node-style callbacks `(error, value)` become `Except`/`Option`
results.
-/

/-- Result of a Node `fs.stat`/`fs.lstat` call on one path, as observed by
the pipeline: success with a file / directory / other entry type, or a
failure carrying its `error.code` (non-existence is `error "ENOENT"`). -/
inductive FSStat where
  | file
  | directory
  | other
  | error (code : String)
deriving DecidableEq, Repr

/-- Stat succeeded and reported a regular file (`stats.isFile()`). -/
def FSStat.isFileStat : FSStat → Bool
  | .file => true
  | _ => false

/-- Stat succeeded and reported a directory (`stats.isDirectory()`). -/
def FSStat.isDirStat : FSStat → Bool
  | .directory => true
  | _ => false

/-- Stat failed with an error code other than ENOENT: a real I/O failure,
matching the JS test `error && error.code !== 'ENOENT'`. -/
def FSStat.isIOError : FSStat → Bool
  | .error code => code != "ENOENT"
  | _ => false

/-- A candidate neither wins an extension check nor aborts the chain when
the index fallback is disabled: the resolver moves on to the next
candidate (directory, other entry type, or ENOENT). -/
def FSStat.skipStat : FSStat → Bool
  | .file => false
  | .error code => code == "ENOENT"
  | _ => true

/-- Filesystem snapshot: stat result for every path. -/
def StatFS : Type := String → FSStat

/-- Last character test on a string (JS `s[s.length - 1] === c`),
written over the character list so that it reduces definitionally. -/
def endsWithChar (s : String) (c : Char) : Bool :=
  match s.data.getLast? with
  | some d => d == c
  | none => false

/-- First character test on a string (`s.startsWith` for one character),
written over the character list so that it reduces definitionally. -/
def startsWithChar (s : String) (c : Char) : Bool :=
  match s.data with
  | d :: _ => d == c
  | [] => false

/-- Drop the last character of a string. -/
def dropLastChar (s : String) : String :=
  String.mk s.data.dropLast

/-- Drop the first character of a string. -/
def dropFirstChar (s : String) : String :=
  String.mk (s.data.drop 1)

/-- Split a character list on a separator character (the list analogue of
`String.splitOn` for a one-character separator). -/
def splitCharList (c : Char) : List Char → List (List Char)
  | [] => [[]]
  | d :: rest =>
    let groups := splitCharList c rest
    if d == c then [] :: groups
    else
      match groups with
      | [] => [[d]]
      | g :: gs => (d :: g) :: gs

/-- Split a string on a separator character. -/
def splitOnChar (s : String) (c : Char) : List String :=
  (splitCharList c s.data).map String.mk

/-- Parse a non-empty all-digit character list as a decimal number
(the semantics of `String.toNat?`), written structurally. -/
def digitsToNat : List Char → Option Nat
  | [] => none
  | [d] => if d.isDigit then some (d.toNat - 48) else none
  | d :: rest =>
    if d.isDigit then
      (digitsToNat rest).map (fun n => (d.toNat - 48) * 10 ^ rest.length + n)
    else none

/-- Parse a string as a decimal natural (the semantics of
`String.toNat?`). -/
def strToNat (s : String) : Option Nat :=
  digitsToNat s.data

/-- Node's `path.join` restricted to the argument shapes the pipeline uses
(no `..` segments): a single separator is kept between the two parts and a
trailing slash of the second part is preserved. -/
def joinP (a b : String) : String :=
  let a' := if endsWithChar a '/' then dropLastChar a else a
  if startsWithChar b '/' then a' ++ b else a' ++ "/" ++ b

/-- The process-wide temp directory root (`tmpdir()` in the source); its
concrete value is irrelevant to every claim, so the model fixes it. -/
def TmpDir : String := "/tmp"

/-- Cache lifetime constant `OneMinute` from the source. -/
def OneMinute : Nat := 60

/-- Cache lifetime constant `OneDay` from the source. -/
def OneDay : Nat := OneMinute * 60 * 24

/-- Cache lifetime constant `OneYear` from the source. -/
def OneYear : Nat := OneDay * 365

/-- The Cache Gate: `checkLocalCache` stats `dir/package.json` and reports
cached exactly when the stat succeeded with a regular file; every error,
ENOENT or not, makes `stats` undefined and the callback receives a falsy
value. -/
def checkLocalCache (fs : StatFS) (dir : String) : Bool :=
  (fs (joinP dir "package.json")).isFileStat

/-- The extension list `ResolveExtensions = ['', '.js', '.json']` from the
source; `reduceRight` over it tries the empty suffix first. -/
def resolveExtensions : List String := ["", ".js", ".json"]

/-- The candidate paths the resolver stats, in the order it stats them. -/
def resolveCandidates (file : String) : List String :=
  resolveExtensions.map (fun ext => file ++ ext)

/-- The extension chain of `resolveFile` with `useIndex = false`: for each
candidate `file ++ ext`, a regular file wins, a non-ENOENT stat error
aborts the whole chain, and anything else (directory, other type, ENOENT)
moves on to the next candidate; an exhausted chain reports `none`. -/
def tryExts (fs : StatFS) (file : String) : List String → Except String (Option String)
  | [] => .ok none
  | ext :: rest =>
    let filename := file ++ ext
    match fs filename with
    | .file => .ok (some filename)
    | .directory => tryExts fs file rest
    | .other => tryExts fs file rest
    | .error code => if code = "ENOENT" then tryExts fs file rest else .error code

/-- The extension chain of `resolveFile` with `useIndex = true`: as
`tryExts`, except that a candidate which stats as a directory immediately
recurses into `candidate/index` with the fallback disabled
(`resolveFile(joinPaths(filename, 'index'), false, ...)` in the source);
an error from the recursion aborts, a file from it wins, and `none` from
it moves on to the next candidate with the fallback still enabled. -/
def tryExtsIdx (fs : StatFS) (file : String) : List String → Except String (Option String)
  | [] => .ok none
  | ext :: rest =>
    let filename := file ++ ext
    match fs filename with
    | .file => .ok (some filename)
    | .directory =>
      match tryExts fs (joinP filename "index") resolveExtensions with
      | .error e => .error e
      | .ok (some indexFile) => .ok (some indexFile)
      | .ok none => tryExtsIdx fs file rest
    | .other => tryExtsIdx fs file rest
    | .error code => if code = "ENOENT" then tryExtsIdx fs file rest else .error code

/-- The File Resolver `resolveFile(file, useIndex, callback)`: resolves a
path like `lib/file` into `lib/file.js` or `lib/file.json` depending on
which is available; `.ok (some f)` models `callback(null, f)`, `.ok none`
models the exhausted chain, `.error e` models `callback(error)`. -/
def resolveFile (fs : StatFS) (file : String) (useIndex : Bool) : Except String (Option String) :=
  if useIndex then tryExtsIdx fs file resolveExtensions else tryExts fs file resolveExtensions

/-- Entry classification used by the tree builder, mirroring the flag
tests of `getType` in the source. -/
inductive EntryType where
  | file
  | directory
  | blockDevice
  | characterDevice
  | symlink
  | fifo
  | socket
  | unknown
deriving DecidableEq, Repr

/-- The `getType` chain of the tree module, mapping the (mutually
exclusive) stat flags to their labels. -/
def getType : EntryType → String
  | .file => "file"
  | .directory => "directory"
  | .blockDevice => "blockDevice"
  | .characterDevice => "characterDevice"
  | .symlink => "symlink"
  | .fifo => "fifo"
  | .socket => "socket"
  | .unknown => "unknown"

/-- A successful `fs.lstat` result as the tree builder consumes it:
`mtimeISO` stands for the already-converted
`new Date(stats.mtime).toISOString()` string, `size` for `stats.size`,
`ftype` for the entry-type flags. -/
structure Stats where
  mtimeISO : String
  size : Nat
  ftype : EntryType
deriving DecidableEq, Repr

/-- A `FileSystemEntry` node of the directory tree.  The `children`
field models the JS object key: `none` means the key is absent from the
object (file entries), `some none` means the key is present with value
`null` (directory whose depth budget is exhausted), `some (some cs)`
means the key holds the child list. -/
inductive FileEntry where
  | mk (path lastModified mime : String) (size : Nat) (type : String)
       (children : Option (Option (List FileEntry)))
deriving Repr

/-- The `path` field of a tree entry. -/
def FileEntry.path : FileEntry → String
  | .mk p _ _ _ _ _ => p

/-- The `children` field of a tree entry (`none` = key absent,
`some none` = key present holding null). -/
def FileEntry.children : FileEntry → Option (Option (List FileEntry))
  | .mk _ _ _ _ _ c => c

/-- The collaborators a request's serve phase consults, bundled: a stat
snapshot for the File Resolver and Cache Gate, `readFile`/`JSON.parse`
for the manifest, `getContentType` (from ResponseUtils), and
`lstat`/`readdir` for the tree builder, plus the Bower bundle
collaborator. -/
structure ServeEnv where
  fs : StatFS
  readFile : String → Except String String
  parseJSON : String → Except String (List (String × String))
  contentType : String → String
  lstat : String → Except String Stats
  readdir : String → Except String (List String)
  createBowerPackage : String → Except String (Option String)

/-- The lstat phase of `getEntries`: `Promise.all(files.map(getStats))`,
statting `dir/file` for every listed name and rejecting with the first
failing stat's error. -/
def statAll (env : ServeEnv) (dir : String) : List String → Except String (List Stats)
  | [] => .ok []
  | f :: rest =>
    match env.lstat (joinP dir f) with
    | .error e => .error e
    | .ok st => (statAll env dir rest).map (fun sts => st :: sts)

mutual

/-- The `getEntries(baseDir, name, maximumDepth)` promise of the tree
module: list `baseDir/name`, stat every child, and resolve each child's
entry, keeping the listing order; any rejection rejects the whole
level. -/
def getEntries (env : ServeEnv) (baseDir name : String) (maximumDepth : Nat) :
    Except String (List FileEntry) :=
  let dir := joinP baseDir name
  match env.readdir dir with
  | .error e => .error e
  | .ok files =>
    match statAll env dir files with
    | .error e => .error e
    | .ok statsArray =>
      resolveEntries env baseDir ((files.zip statsArray).map (fun fs => (joinP name fs.1, fs.2)))
        maximumDepth
termination_by (maximumDepth, 3, 0)

/-- The `Promise.all(statsArray.map(resolveEntry ...))` step: resolve
each `(path, stats)` pair in listing order, rejecting on the first
failure. -/
def resolveEntries (env : ServeEnv) (baseDir : String) (pairs : List (String × Stats))
    (maximumDepth : Nat) : Except String (List FileEntry) :=
  match pairs with
  | [] => .ok []
  | (p, st) :: rest =>
    match resolveEntry env baseDir p st maximumDepth with
    | .error e => .error e
    | .ok entry =>
      match resolveEntries env baseDir rest maximumDepth with
      | .error e => .error e
      | .ok entries => .ok (entry :: entries)
termination_by (maximumDepth, 2, pairs.length)

/-- The `resolveEntry` dispatch: directories go through
`resolveDirectory`, anything else becomes a leaf object without a
`children` key. -/
def resolveEntry (env : ServeEnv) (baseDir p : String) (st : Stats) (maximumDepth : Nat) :
    Except String FileEntry :=
  if st.ftype = .directory then
    resolveDirectory env baseDir p st maximumDepth
  else
    .ok (.mk p st.mtimeISO (env.contentType p) st.size (getType st.ftype) none)
termination_by (maximumDepth, 1, 0)

/-- The `resolveDirectory` step: with remaining depth the children are
the recursive `getEntries` at `maximumDepth - 1`; with depth exhausted
the promise resolves `null`, so the built object carries a `children`
key holding null (`some none` here). -/
def resolveDirectory (env : ServeEnv) (baseDir p : String) (st : Stats) (maximumDepth : Nat) :
    Except String FileEntry :=
  if h : 0 < maximumDepth then
    match getEntries env baseDir p (maximumDepth - 1) with
    | .error e => .error e
    | .ok cs =>
      .ok (.mk p st.mtimeISO (env.contentType p) st.size (getType st.ftype) (some (some cs)))
  else
    .ok (.mk p st.mtimeISO (env.contentType p) st.size (getType st.ftype) (some none))
termination_by (maximumDepth, 0, 0)

end

/-- The exported `generateDirectoryTree(baseDir, dir, maximumDepth, cb)`:
`getEntries` with success passed as `callback(null, json)` and a
rejection passed as `callback(error)`. -/
def generateDirectoryTree (env : ServeEnv) (baseDir dir : String) (maximumDepth : Nat) :
    Except String (List FileEntry) :=
  getEntries env baseDir dir maximumDepth

/-- One response written by the pipeline through the ResponseUtils
collaborators; each constructor records the arguments the source hands to
the corresponding send function. -/
inductive Response where
  | invalidURL (url : String)
  | notFound (subject : String)
  | serverError (message : String)
  | redirect (location : String) (ttl : Nat)
  | file (path : String) (ttl : Nat)
  | json (tree : List FileEntry) (ttl : Nat)
  | text (status : Nat) (message : String)
deriving Repr

/-- Static configuration of `createRequestHandler` after defaulting. -/
structure Config where
  registryURL : String
  bowerBundle : String
  redirectTTL : Nat
  autoIndex : Bool
  maximumDepth : Nat

/-- Modelled from the spec: `createPackageURL` lives in PackageUtils,
which is not under src/.  Per §4.5 the redirect target is the canonical
URL built from the package name and the resolved exact version with the
same filename and search carried through. -/
def createPackageURL (packageName version filename search : String) : String :=
  "/" ++ packageName ++ "@" ++ version ++ filename ++ search

/-- Modelled from the spec: parse an exact semantic version
`major.minor.patch` with numeric components. -/
def parseVersion (s : String) : Option (Nat × Nat × Nat) :=
  match (splitOnChar s '.').map strToNat with
  | [some a, some b, some c] => some (a, b, c)
  | _ => none

/-- Strict lexicographic order on parsed versions (semver precedence for
plain numeric versions). -/
def verLtB (x y : Nat × Nat × Nat) : Bool :=
  if x.1 ≠ y.1 then decide (x.1 < y.1)
  else if x.2.1 ≠ y.2.1 then decide (x.2.1 < y.2.1)
  else decide (x.2.2 < y.2.2)

/-- Modelled from the spec: parse a caret range `^a`, `^a.b` or `^a.b.c`
into its lower bound (GLOSSARY: a range such as `^1` matches the highest
`1.x.y`). -/
def parseCaret (s : String) : Option (Nat × Nat × Nat) :=
  if startsWithChar s '^' then
    match (splitOnChar (dropFirstChar s) '.').map strToNat with
    | [some a] => some (a, 0, 0)
    | [some a, some b] => some (a, b, 0)
    | [some a, some b, some c] => some (a, b, c)
    | _ => none
  else none

/-- Modelled from the spec: a version satisfies a range when the range is
that exact version, or the range is a caret range with the same major
component and the version is at least the bound. -/
def satisfiesRange (v : Nat × Nat × Nat) (range : String) : Bool :=
  match parseVersion range with
  | some r => decide (v = r)
  | none =>
    match parseCaret range with
    | some lb => decide (v.1 = lb.1) && (verLtB lb v || decide (v = lb))
    | none => false

/-- Modelled from the spec: the semver collaborator's
`maxSatisfying(versions, range)` (§1 lists semantic-version range
matching as an external collaborator): the highest version string among
`keys` whose parsed version satisfies the range, or `none`. -/
def maxSatisfyingVersion (keys : List String) (range : String) : Option String :=
  (keys.foldl
    (fun best k =>
      match parseVersion k with
      | none => best
      | some v =>
        if satisfiesRange v range then
          match best with
          | none => some (k, v)
          | some kv => if verLtB kv.2 v then some (k, v) else best
        else best)
    none).map Prod.fst

/-- Registry metadata as the pipeline reads it out of `response.jsonData`:
`versions` maps each exact version key to its tarball URL
(`versions[v].dist.tarball`, the only manifest part the handler uses) and
`distTags` is the dist-tags map; `versions = none` models a JSON document
without a versions key. -/
structure PackageInfo where
  versions : Option (List (String × String))
  distTags : List (String × String)

/-- Outcome of `getPackageInfo` for one request: a transport error or a
response with a status and optional JSON body. -/
inductive RegistryResult where
  | err (e : String)
  | resp (status : Nat) (jsonData : Option PackageInfo)

/-- The `serveFile` closure of `handleRequest`, for a package already on
disk: the bower pseudo-path branch, the non-empty filename branch
(resolve, else auto-index: slash-less directory URLs redirect to
`baseUrl + "/"`, slash-terminated ones serve the generated tree), and the
empty-filename branch (manifest entry point with the index fallback
enabled). -/
def serveFilePart (cfg : Config) (env : ServeEnv)
    (packageName version filename search baseUrl reqUrl : String)
    (queryMain : Option String) : Response :=
  let displayName := packageName ++ "@" ++ version
  let tarballDir := joinP TmpDir (packageName ++ "-" ++ version)
  if filename = cfg.bowerBundle then
    match env.createBowerPackage tarballDir with
    | .error e => .serverError e
    | .ok none => .notFound ("bower.zip in package " ++ displayName)
    | .ok (some f) => .file f OneYear
  else if filename ≠ "" then
    let filepath := joinP tarballDir filename
    match resolveFile env.fs filepath false with
    | .error e => .serverError e
    | .ok (some f) => .file f OneYear
    | .ok none =>
      if cfg.autoIndex then
        match env.fs filepath with
        | .directory =>
          if endsWithChar reqUrl '/' then
            match generateDirectoryTree env tarballDir filename cfg.maximumDepth with
            | .ok json => .json json OneYear
            | .error _ =>
              .serverError ("unable to generate index json for " ++ displayName ++ filename)
          else
            .redirect (baseUrl ++ "/") cfg.redirectTTL
        | _ => .notFound ("file \"" ++ filename ++ "\" in package " ++ displayName)
      else
        .notFound ("file \"" ++ filename ++ "\" in package " ++ displayName)
  else
    match env.readFile (joinP tarballDir "package.json") with
    | .error e => .serverError e
    | .ok data =>
      match env.parseJSON data with
      | .error msg => .text 500 ("Error parsing package.json: " ++ msg)
      | .ok packageConfig =>
        let queryMainVal := match queryMain with
          | some q => if q = "" then none else some q
          | none => none
        match queryMainVal with
        | some q =>
          if (packageConfig.lookup q).isNone then
            .notFound ("field \"" ++ q ++ "\" in package.json of "
              ++ packageName ++ "@" ++ version)
          else
            let mainFilename := match packageConfig.lookup q with
              | some v => if v = "" then "index" else v
              | none => "index"
            match resolveFile env.fs (joinP tarballDir mainFilename) true with
            | .error e => .serverError e
            | .ok none =>
              .notFound ("main file \"" ++ mainFilename ++ "\" in package "
                ++ packageName ++ "@" ++ version)
            | .ok (some f) => .file f OneYear
        | none =>
          let mainFilename := match packageConfig.lookup "main" with
            | some v => if v = "" then "index" else v
            | none => "index"
          match resolveFile env.fs (joinP tarballDir mainFilename) true with
          | .error e => .serverError e
          | .ok none =>
            .notFound ("main file \"" ++ mainFilename ++ "\" in package "
              ++ packageName ++ "@" ++ version)
          | .ok (some f) => .file f OneYear

/-- The registry branch of `handleRequest` (a cache miss): transport
errors and 404s first, then the three decision rules in source order —
exact version key (fetch the tarball with `getPackage`, then serve with
the post-extraction snapshot `envPost`), dist-tag key (redirect),
max-satisfying range (redirect), otherwise not found. -/
def registryFlow (cfg : Config) (envPost : ServeEnv)
    (getPackage : String → String → Except String Unit)
    (packageName version filename search baseUrl reqUrl : String)
    (queryMain : Option String) (resp : RegistryResult) : Response :=
  let tarballDir := joinP TmpDir (packageName ++ "-" ++ version)
  match resp with
  | .err e => .serverError e
  | .resp status jsonData =>
    if status = 404 then
      .notFound ("package \"" ++ packageName ++ "\"")
    else
      match jsonData with
      | none => .serverError ("Unable to retrieve info for package " ++ packageName)
      | some info =>
        match info.versions with
        | none => .serverError ("Unable to retrieve info for package " ++ packageName)
        | some versions =>
          match versions.lookup version with
          | some tarballURL =>
            match getPackage tarballURL tarballDir with
            | .error e => .serverError e
            | .ok _ =>
              serveFilePart cfg envPost packageName version filename search baseUrl reqUrl
                queryMain
          | none =>
            match info.distTags.lookup version with
            | some tagVersion =>
              .redirect (baseUrl ++ createPackageURL packageName tagVersion filename search)
                cfg.redirectTTL
            | none =>
              match maxSatisfyingVersion (versions.map Prod.fst) version with
              | some maxVersion =>
                .redirect (baseUrl ++ createPackageURL packageName maxVersion filename search)
                  cfg.redirectTTL
              | none => .notFound ("package " ++ packageName ++ "@" ++ version)

/-- The body of `handleRequest` after a successful parse: the tarball
directory is derived from the package name and the version token exactly
as parsed, the Cache Gate is consulted on it, a hit serves from the
pre-state snapshot `envPre`, and a miss enters the registry branch
(whose successful fetch serves from `envPost`). -/
def handleRequestParsed (cfg : Config) (envPre envPost : ServeEnv)
    (getPackage : String → String → Except String Unit) (registry : RegistryResult)
    (packageName version filename search baseUrl reqUrl : String)
    (queryMain : Option String) : Response :=
  let tarballDir := joinP TmpDir (packageName ++ "-" ++ version)
  if checkLocalCache envPre.fs tarballDir then
    serveFilePart cfg envPre packageName version filename search baseUrl reqUrl queryMain
  else
    registryFlow cfg envPost getPackage packageName version filename search baseUrl reqUrl
      queryMain registry


/-! Concrete collaborator instances used by the counterexamples and
witnesses below.  `defaultEnv` answers every query with a failure, so each
instance only overrides the queries its scenario needs. -/

/-- A serve environment in which every path is absent and every
collaborator call fails; concrete scenarios override single fields. -/
def defaultEnv : ServeEnv where
  fs := fun _ => .error "ENOENT"
  readFile := fun _ => .error "ENOENT"
  parseJSON := fun _ => .error "unexpected token"
  contentType := fun _ => "application/octet-stream"
  lstat := fun _ => .error "ENOENT"
  readdir := fun _ => .error "ENOENT"
  createBowerPackage := fun _ => .error "ENOENT"

/-- The option defaults of `createRequestHandler` (registry URL, bower
pseudo-path, zero redirect TTL, auto-index on, unbounded depth modelled
as a large budget). -/
def defaultCfg : Config where
  registryURL := "https://registry.npmjs.org"
  bowerBundle := "/bower.zip"
  redirectTTL := 0
  autoIndex := true
  maximumDepth := 1000000

/-- Disk state for the C1 scenario: package `history@1.0.0` is cached and
`lib` inside it is a directory with no `lib`, `lib.js` or `lib.json`
file. -/
def fsC1 : StatFS := fun p =>
  if p = "/tmp/history-1.0.0/package.json" then .file
  else if p = "/tmp/history-1.0.0/lib" then .directory
  else .error "ENOENT"

/-- Serve environment for the C1 scenario. -/
def envC1 : ServeEnv := { defaultEnv with fs := fsC1 }

/-- Stats of the directory entry in the C2 scenario. -/
def stC2 : Stats where
  mtimeISO := "2020-01-01T00:00:00.000Z"
  size := 4096
  ftype := .directory

/-- Environment for the C2 counterexample: `/tmp/p/lib` is a non-empty
directory (it lists one child). -/
def envC2 : ServeEnv :=
  { defaultEnv with readdir := fun p => if p = "/tmp/p/lib" then .ok ["a.txt"] else .error "ENOENT" }

/-- Environment for the C2 witness: `/tmp/p/lib` is an empty
directory. -/
def envC2e : ServeEnv :=
  { defaultEnv with readdir := fun p => if p = "/tmp/p/lib" then .ok [] else .error "ENOENT" }

/-- Disk state for the C3 counterexample: a directory named after the tag
token (`history-latest`) is materialized with a manifest and an
`index.js`. -/
def fsC3 : StatFS := fun p =>
  if p = "/tmp/history-latest/package.json" then .file
  else if p = "/tmp/history-latest/index.js" then .file
  else .error "ENOENT"

/-- Serve environment for the C3 counterexample. -/
def envC3 : ServeEnv := { defaultEnv with fs := fsC3 }

/-- Registry metadata for the C3 counterexample: one exact version and
the `latest` dist-tag pointing at it. -/
def infoC3 : PackageInfo where
  versions := some [("2.0.0", "https://registry.npmjs.org/history/-/history-2.0.0.tgz")]
  distTags := [("latest", "2.0.0")]

/-- Published versions for the C4 witness scenario, with their tarball
URLs. -/
def versC4 : List (String × String) :=
  [("1.0.0", "t1"), ("1.2.0", "t2"), ("2.0.0", "t3")]

/-- Disk state for the C5 witness: `lib.js` and `lib.json` are both
regular files and `lib` itself is absent. -/
def fsC5 : StatFS := fun p =>
  if p = "lib.js" then .file
  else if p = "lib.json" then .file
  else .error "ENOENT"

/-- Disk state for the C6 counterexample: `lib` is a directory holding
`index.js`, while `lib.js` also exists as a regular file. -/
def fsC6 : StatFS := fun p =>
  if p = "lib" then .directory
  else if p = "lib/index.js" then .file
  else if p = "lib.js" then .file
  else .error "ENOENT"

/-- Disk state for the C6 witness: `lib` is a directory holding only
`index.json`. -/
def fsLibJson : StatFS := fun p =>
  if p = "lib" then .directory
  else if p = "lib/index.json" then .file
  else .error "ENOENT"

/-- Disk state for the C7 witness: the literal path fails to stat with
EACCES while both extension candidates exist as files. -/
def fsC7 : StatFS := fun p =>
  if p = "a" then .error "EACCES"
  else if p = "a.js" then .file
  else if p = "a.json" then .file
  else .error "ENOENT"

/-- Disk state for the C8 witness: only `lib/foo.js` exists inside the
cached package `p@1.0.0`. -/
def fsC8 : StatFS := fun p =>
  if p = "/tmp/p-1.0.0/lib/foo.js" then .file
  else .error "ENOENT"

/-- Serve environment for the C8 witness: the manifest reads and parses
to a single field `main = lib/foo`. -/
def envC8 : ServeEnv :=
  { defaultEnv with
    fs := fsC8
    readFile := fun p => if p = "/tmp/p-1.0.0/package.json" then .ok "manifest" else .error "ENOENT"
    parseJSON := fun d => if d = "manifest" then .ok [("main", "lib/foo")] else .error "bad json" }

/-- Disk state for the C10 witness: the manifest stat of the cache
directory fails with EACCES (permission denied), not ENOENT. -/
def fsC10 : StatFS := fun p =>
  if p = "/tmp/history-1.0.0/package.json" then .error "EACCES"
  else .error "ENOENT"

/-- Serve environment for the C10 witness. -/
def envC10 : ServeEnv := { defaultEnv with fs := fsC10 }

/-! Helper lemmas about the extension chain. -/

/-- Without I/O errors on the candidates, the extension chain returns the
first candidate that stats as a regular file. -/
theorem tryExts_eq_find (fs : StatFS) (file : String) :
    ∀ exts : List String, (∀ e ∈ exts, (fs (file ++ e)).isIOError = false) →
      tryExts fs file exts
        = .ok ((exts.map (fun e => file ++ e)).find? (fun c => (fs c).isFileStat))
  | [], _ => rfl
  | ext :: rest, h => by
    have hrest : ∀ e ∈ rest, (fs (file ++ e)).isIOError = false :=
      fun e he => h e (List.mem_cons_of_mem _ he)
    have hext := h ext (List.mem_cons_self _ _)
    cases hfs : fs (file ++ ext) with
    | file =>
      simp [tryExts, hfs, List.find?, FSStat.isFileStat]
    | directory =>
      simp [tryExts, hfs, List.find?, FSStat.isFileStat, tryExts_eq_find fs file rest hrest]
    | other =>
      simp [tryExts, hfs, List.find?, FSStat.isFileStat, tryExts_eq_find fs file rest hrest]
    | error code =>
      rw [hfs] at hext
      simp [FSStat.isIOError] at hext
      simp [tryExts, hfs, hext, List.find?, FSStat.isFileStat,
        tryExts_eq_find fs file rest hrest]

/-- Whatever the fallback-free chain returns stats as a regular file. -/
theorem tryExts_isFile (fs : StatFS) (file : String) :
    ∀ (exts : List String) (f : String), tryExts fs file exts = .ok (some f) →
      (fs f).isFileStat = true
  | [], f, h => by simp [tryExts] at h
  | ext :: rest, f, h => by
    cases hfs : fs (file ++ ext) with
    | file =>
      rw [tryExts, hfs] at h
      simp at h
      rw [← h, hfs]
      rfl
    | directory =>
      rw [tryExts, hfs] at h
      exact tryExts_isFile fs file rest f h
    | other =>
      rw [tryExts, hfs] at h
      exact tryExts_isFile fs file rest f h
    | error code =>
      rw [tryExts, hfs] at h
      by_cases hc : code = "ENOENT"
      · rw [hc] at h
        exact tryExts_isFile fs file rest f h
      · simp [hc] at h

/-- Whatever the fallback-enabled chain returns stats as a regular
file. -/
theorem tryExtsIdx_isFile (fs : StatFS) (file : String) :
    ∀ (exts : List String) (f : String), tryExtsIdx fs file exts = .ok (some f) →
      (fs f).isFileStat = true
  | [], f, h => by simp [tryExtsIdx] at h
  | ext :: rest, f, h => by
    cases hfs : fs (file ++ ext) with
    | file =>
      rw [tryExtsIdx, hfs] at h
      simp at h
      rw [← h, hfs]
      rfl
    | directory =>
      rw [tryExtsIdx, hfs] at h
      cases hidx : tryExts fs (joinP (file ++ ext) "index") resolveExtensions with
      | error e => rw [hidx] at h; simp at h
      | ok v =>
        cases v with
        | none =>
          rw [hidx] at h
          exact tryExtsIdx_isFile fs file rest f h
        | some idx =>
          rw [hidx] at h
          simp at h
          subst h
          exact tryExts_isFile fs (joinP (file ++ ext) "index") resolveExtensions _ hidx
    | other =>
      rw [tryExtsIdx, hfs] at h
      exact tryExtsIdx_isFile fs file rest f h
    | error code =>
      rw [tryExtsIdx, hfs] at h
      by_cases hc : code = "ENOENT"
      · rw [hc] at h
        exact tryExtsIdx_isFile fs file rest f h
      · simp [hc] at h

/-- A non-ENOENT stat error on a candidate aborts the fallback-free chain
with that error, provided every earlier candidate was skippable. -/
theorem tryExts_error_of_skip (fs : StatFS) (file code : String) (hc : code ≠ "ENOENT") :
    ∀ (l₁ : List String) (ext : String) (l₂ : List String),
      (∀ e ∈ l₁, (fs (file ++ e)).skipStat = true) → fs (file ++ ext) = .error code →
      tryExts fs file (l₁ ++ ext :: l₂) = .error code
  | [], ext, l₂, _, herr => by
    simp [tryExts, herr, hc]
  | e :: l₁, ext, l₂, hskip, herr => by
    have he := hskip e (List.mem_cons_self _ _)
    have hl₁ : ∀ x ∈ l₁, (fs (file ++ x)).skipStat = true :=
      fun x hx => hskip x (List.mem_cons_of_mem _ hx)
    cases hfs : fs (file ++ e) with
    | file =>
      rw [hfs] at he
      simp [FSStat.skipStat] at he
    | directory =>
      rw [List.cons_append, tryExts, hfs]
      exact tryExts_error_of_skip fs file code hc l₁ ext l₂ hl₁ herr
    | other =>
      rw [List.cons_append, tryExts, hfs]
      exact tryExts_error_of_skip fs file code hc l₁ ext l₂ hl₁ herr
    | error c' =>
      rw [hfs] at he
      simp [FSStat.skipStat] at he
      rw [List.cons_append, tryExts, hfs, he]
      exact tryExts_error_of_skip fs file code hc l₁ ext l₂ hl₁ herr

/-- C5: with no I/O errors among the three candidates, `resolveFile`
without the index fallback tries the literal path, then `+.js`, then
`+.json`, returns the first candidate that exists as a regular file,
never returns a directory, and prefers `.js` over `.json` when both
exist. -/
theorem claim5_extension_priority (fs : StatFS) (file : String)
    (h : ∀ c ∈ resolveCandidates file, (fs c).isIOError = false) :
    resolveFile fs file false
      = .ok ((resolveCandidates file).find? (fun c => (fs c).isFileStat))
    ∧ (∀ (useIndex : Bool) (f : String), resolveFile fs file useIndex = .ok (some f) →
        (fs f).isFileStat = true)
    ∧ ((fs file).isFileStat = false → (fs (file ++ ".js")).isFileStat = true →
        (fs (file ++ ".json")).isFileStat = true →
        resolveFile fs file false = .ok (some (file ++ ".js"))) := by
  have hmain :
      resolveFile fs file false
        = .ok ((resolveCandidates file).find? (fun c => (fs c).isFileStat)) := by
    rw [resolveFile, if_neg (by simp)]
    exact tryExts_eq_find fs file resolveExtensions
      (by simpa [resolveCandidates, resolveExtensions] using h)
  refine ⟨hmain, ?_, ?_⟩
  · intro useIndex f hf
    cases useIndex with
    | false =>
      rw [resolveFile, if_neg (by simp)] at hf
      exact tryExts_isFile fs file resolveExtensions f hf
    | true =>
      rw [resolveFile, if_pos rfl] at hf
      exact tryExtsIdx_isFile fs file resolveExtensions f hf
  · intro h1 h2 _
    rw [hmain]
    simp [resolveCandidates, resolveExtensions, List.find?, String.append_empty, h1, h2]

/-- C5 witness: with `lib.js` and `lib.json` both present as files and
`lib` absent, the resolver returns `lib.js`. -/
theorem claim5_extension_priority_witness :
    (∀ c ∈ resolveCandidates "lib", (fsC5 c).isIOError = false)
    ∧ resolveFile fsC5 "lib" false = .ok (some "lib.js") :=
  ⟨by decide, (claim5_extension_priority fsC5 "lib" (by decide)).2.2 rfl rfl rfl⟩

/-- C6 counterexample: with `lib` a directory containing `index.js` and
`lib.js` existing as a regular file, the index fallback fires even though
an extension candidate exists as a file — the resolver returns
`lib/index.js`, not `lib.js`, so the fallback does not wait for all three
extension candidates to be absent. -/
theorem claim6_counterexample :
    resolveFile fsC6 "lib" true = .ok (some "lib/index.js")
    ∧ (fsC6 "lib.js").isFileStat = true
    ∧ "lib/index.js" ≠ "lib.js" :=
  ⟨rfl, rfl, by decide⟩

/-- C6 amended: with the fallback enabled, the resolver scans the
candidates in the fixed order and, at the first candidate that stats as a
directory, immediately recurses exactly once into `candidate/index` with
the fallback disabled — before trying any later extension candidate: a
file or an error from the recursion is returned as-is, and an exhausted
recursion moves on to the remaining candidates with the fallback still
enabled.  In particular a directory containing only an index file still
resolves to that index file. -/
theorem claim6_index_fallback (fs : StatFS) (file : String) :
    (∀ g, fs file = .directory → resolveFile fs (joinP file "index") false = .ok (some g) →
      resolveFile fs file true = .ok (some g))
    ∧ (fs file = .directory → resolveFile fs (joinP file "index") false = .ok none →
      resolveFile fs file true = tryExtsIdx fs file [".js", ".json"]) := by
  constructor
  · intro g hdir hidx
    rw [resolveFile, if_neg (by simp)] at hidx
    rw [resolveFile, if_pos rfl, resolveExtensions, tryExtsIdx, String.append_empty, hdir, hidx]
  · intro hdir hidx
    rw [resolveFile, if_neg (by simp)] at hidx
    rw [resolveFile, if_pos rfl, resolveExtensions, tryExtsIdx, String.append_empty, hdir, hidx]

/-- C6 witness: a directory `lib` containing only `index.json` resolves
through the fallback to `lib/index.json`. -/
theorem claim6_index_fallback_witness :
    fsLibJson "lib" = .directory
    ∧ resolveFile fsLibJson (joinP "lib" "index") false = .ok (some "lib/index.json")
    ∧ resolveFile fsLibJson "lib" true = .ok (some "lib/index.json") :=
  ⟨rfl, rfl, (claim6_index_fallback fsLibJson "lib").1 "lib/index.json" rfl rfl⟩

/-- C7: a stat failure whose code is not ENOENT aborts the resolver with
that error: at the first candidate in either mode, at any later candidate
once the earlier ones were skippable, and out of the index recursion —
regardless of what any remaining candidate holds. -/
theorem claim7_ioerror_short_circuit (fs : StatFS) (file code : String)
    (hc : code ≠ "ENOENT") :
    (∀ useIndex : Bool, fs file = .error code → resolveFile fs file useIndex = .error code)
    ∧ (∀ (l₁ : List String) (ext : String) (l₂ : List String),
        resolveExtensions = l₁ ++ ext :: l₂ →
        (∀ e ∈ l₁, (fs (file ++ e)).skipStat = true) → fs (file ++ ext) = .error code →
        resolveFile fs file false = .error code)
    ∧ (fs file = .directory → resolveFile fs (joinP file "index") false = .error code →
        resolveFile fs file true = .error code) := by
  refine ⟨?_, ?_, ?_⟩
  · intro useIndex herr
    cases useIndex with
    | false =>
      rw [resolveFile, if_neg (by simp), resolveExtensions, tryExts, String.append_empty, herr]
      simp [hc]
    | true =>
      rw [resolveFile, if_pos rfl, resolveExtensions, tryExtsIdx, String.append_empty, herr]
      simp [hc]
  · intro l₁ ext l₂ hsplit hskip herr
    rw [resolveFile, if_neg (by simp), hsplit]
    exact tryExts_error_of_skip fs file code hc l₁ ext l₂ hskip herr
  · intro hdir hidx
    rw [resolveFile, if_neg (by simp)] at hidx
    rw [resolveFile, if_pos rfl, resolveExtensions, tryExtsIdx, String.append_empty, hdir, hidx]

/-- C7 witness: a permission failure on the literal path aborts the
resolver with EACCES even though both extension candidates exist as
files. -/
theorem claim7_ioerror_short_circuit_witness :
    ("EACCES" : String) ≠ "ENOENT"
    ∧ fsC7 "a" = .error "EACCES"
    ∧ (fsC7 "a.js").isFileStat = true
    ∧ resolveFile fsC7 "a" false = .error "EACCES" :=
  ⟨by decide, rfl, rfl,
    (claim7_ioerror_short_circuit fsC7 "a" "EACCES" (by decide)).1 false rfl⟩

/-- C2 counterexample: on a non-empty directory (it lists `a.txt`),
building the entry with depth budget 0 yields a `FileSystemEntry` whose
`children` key is present and holds null (`some none`), not absent
(`none`). -/
theorem claim2_counterexample :
    resolveDirectory envC2 "/tmp/p" "lib" stC2 0
      = .ok (.mk "lib" "2020-01-01T00:00:00.000Z" "application/octet-stream" 4096 "directory"
          (some none))
    ∧ (some (none : Option (List FileEntry))) ≠ none
    ∧ envC2.readdir (joinP "/tmp/p" "lib") = .ok ["a.txt"] := by
  refine ⟨?_, by simp, rfl⟩
  rw [resolveDirectory]
  rfl

/-- C2 amended: with `maxDepth = 0` the directory entry carries a
`children` key holding null (distinguishing "not expanded" from an empty
directory, whose entry at positive depth carries an empty child list);
the key is never absent on a directory entry. -/
theorem claim2_children_null (env : ServeEnv) (baseDir p : String) (st : Stats) :
    resolveDirectory env baseDir p st 0
      = .ok (.mk p st.mtimeISO (env.contentType p) st.size (getType st.ftype) (some none))
    ∧ (env.readdir (joinP baseDir p) = .ok [] →
        resolveDirectory env baseDir p st 1
          = .ok (.mk p st.mtimeISO (env.contentType p) st.size (getType st.ftype)
              (some (some [])))) := by
  constructor
  · rw [resolveDirectory]
    rfl
  · intro hrd
    have h1 : getEntries env baseDir p 0 = .ok [] := by
      rw [getEntries, hrd]
      show resolveEntries env baseDir [] 0 = .ok []
      rw [resolveEntries]
    rw [resolveDirectory]
    simp [h1]

/-- C2 witness: an empty directory at depth budget 1 yields a present,
empty child list. -/
theorem claim2_children_null_witness :
    envC2e.readdir (joinP "/tmp/p" "lib") = .ok []
    ∧ resolveDirectory envC2e "/tmp/p" "lib" stC2 1
      = .ok (.mk "lib" "2020-01-01T00:00:00.000Z" "application/octet-stream" 4096 "directory"
          (some (some []))) :=
  ⟨rfl, (claim2_children_null envC2e "/tmp/p" "lib" stC2).2 rfl⟩

/-- C1: evaluation at the failing input.  With `history@1.0.0` cached,
`lib` a directory, no resolvable file, auto-index on and a slash-less
request URL, the pipeline redirects to `baseUrl + "/"` — dropping the
package path and filename — instead of the request URL with a trailing
slash appended (`baseUrl ++ reqUrl ++ "/"`); with a non-empty base path
prefix the target is just the prefix plus a slash. -/
theorem claim1_redirect_drops_path :
    handleRequestParsed defaultCfg envC1 defaultEnv (fun _ _ => .error "E") (.err "unused")
      "history" "1.0.0" "/lib" "" "" "/history@1.0.0/lib" none
      = .redirect "/" 0
    ∧ ("/" : String) ≠ "" ++ "/history@1.0.0/lib" ++ "/"
    ∧ handleRequestParsed defaultCfg envC1 defaultEnv (fun _ _ => .error "E") (.err "unused")
      "history" "1.0.0" "/lib" "" "/prefix" "/history@1.0.0/lib" none
      = .redirect "/prefix/" 0 :=
  ⟨rfl, by decide, rfl⟩

/-- C3 counterexample: for the tag token `latest` the pipeline consults
the Cache Gate on the directory `/tmp/history-latest` — a path derived
from the raw tag, not an exact version — and, when a manifest sits there,
serves straight from it without any registry resolution, even though the
registry would have redirected `latest` to `2.0.0`. -/
theorem claim3_counterexample :
    checkLocalCache envC3.fs (joinP TmpDir ("history" ++ "-" ++ "latest")) = true
    ∧ ((infoC3.versions.getD []).lookup "latest") = none
    ∧ handleRequestParsed defaultCfg envC3 defaultEnv (fun _ _ => .error "E")
        (.resp 200 (some infoC3)) "history" "latest" "/index.js" "" ""
        "/history@latest/index.js" none
      = .file "/tmp/history-latest/index.js" OneYear :=
  ⟨rfl, rfl, rfl⟩

/-- C3 amended: the cache directory consulted is derived from the
package name and the raw version token (tag and range tokens included),
and the lookup precedes version resolution: a hit serves from that
directory without touching the registry, a miss enters the registry
branch, and the fetch step is never invoked when the token is not an
exact key of the versions map (so only exact-version directories are
ever materialized by the pipeline itself). -/
theorem claim3_cache_key_raw_token (cfg : Config) (envPre envPost : ServeEnv)
    (gp : String → String → Except String Unit) (reg : RegistryResult)
    (pkg ver filename search baseUrl reqUrl : String) (qm : Option String) :
    (checkLocalCache envPre.fs (joinP TmpDir (pkg ++ "-" ++ ver)) = true →
      handleRequestParsed cfg envPre envPost gp reg pkg ver filename search baseUrl reqUrl qm
        = serveFilePart cfg envPre pkg ver filename search baseUrl reqUrl qm)
    ∧ (checkLocalCache envPre.fs (joinP TmpDir (pkg ++ "-" ++ ver)) = false →
      handleRequestParsed cfg envPre envPost gp reg pkg ver filename search baseUrl reqUrl qm
        = registryFlow cfg envPost gp pkg ver filename search baseUrl reqUrl qm reg)
    ∧ (∀ (gp₁ gp₂ : String → String → Except String Unit)
        (versions tags : List (String × String)) (status : Nat),
        versions.lookup ver = none →
        registryFlow cfg envPost gp₁ pkg ver filename search baseUrl reqUrl qm
            (.resp status (some ⟨some versions, tags⟩))
          = registryFlow cfg envPost gp₂ pkg ver filename search baseUrl reqUrl qm
            (.resp status (some ⟨some versions, tags⟩))) := by
  refine ⟨?_, ?_, ?_⟩
  · intro h
    simp [handleRequestParsed, h]
  · intro h
    simp [handleRequestParsed, h]
  · intro gp₁ gp₂ versions tags status hnone
    simp [registryFlow, hnone]

/-- C3 witness: on a cache miss for the tag token the pipeline proceeds
to the registry branch. -/
theorem claim3_cache_key_raw_token_witness :
    checkLocalCache defaultEnv.fs (joinP TmpDir ("history" ++ "-" ++ "latest")) = false
    ∧ handleRequestParsed defaultCfg defaultEnv envC3 (fun _ _ => .error "E")
        (.resp 200 (some infoC3)) "history" "latest" "/index.js" "" ""
        "/history@latest/index.js" none
      = registryFlow defaultCfg envC3 (fun _ _ => .error "E") "history" "latest" "/index.js"
          "" "" "/history@latest/index.js" none (.resp 200 (some infoC3)) :=
  ⟨rfl,
    (claim3_cache_key_raw_token defaultCfg defaultEnv envC3 (fun _ _ => .error "E")
      (.resp 200 (some infoC3)) "history" "latest" "/index.js" "" ""
      "/history@latest/index.js" none).2.1 rfl⟩

/-- C4: once metadata is available the rules fire in order — an exact
versions key fetches and serves, else a dist-tags key redirects to the
URL built from the tag's exact version with filename and search
preserved, else the maximum version satisfying the token as a range
redirects the same way, else the response is NotFound; and on versions
1.0.0 / 1.2.0 / 2.0.0 the range `^1` resolves to 1.2.0. -/
theorem claim4_decision_order (cfg : Config) (envPost : ServeEnv)
    (gp : String → String → Except String Unit)
    (pkg ver filename search baseUrl reqUrl : String) (qm : Option String)
    (versions tags : List (String × String)) :
    (∀ tb, versions.lookup ver = some tb →
      registryFlow cfg envPost gp pkg ver filename search baseUrl reqUrl qm
          (.resp 200 (some ⟨some versions, tags⟩))
        = match gp tb (joinP TmpDir (pkg ++ "-" ++ ver)) with
          | .error e => .serverError e
          | .ok _ => serveFilePart cfg envPost pkg ver filename search baseUrl reqUrl qm)
    ∧ (versions.lookup ver = none → ∀ tv, tags.lookup ver = some tv →
      registryFlow cfg envPost gp pkg ver filename search baseUrl reqUrl qm
          (.resp 200 (some ⟨some versions, tags⟩))
        = .redirect (baseUrl ++ createPackageURL pkg tv filename search) cfg.redirectTTL)
    ∧ (versions.lookup ver = none → tags.lookup ver = none →
       ∀ mv, maxSatisfyingVersion (versions.map Prod.fst) ver = some mv →
      registryFlow cfg envPost gp pkg ver filename search baseUrl reqUrl qm
          (.resp 200 (some ⟨some versions, tags⟩))
        = .redirect (baseUrl ++ createPackageURL pkg mv filename search) cfg.redirectTTL)
    ∧ (versions.lookup ver = none → tags.lookup ver = none →
       maxSatisfyingVersion (versions.map Prod.fst) ver = none →
      registryFlow cfg envPost gp pkg ver filename search baseUrl reqUrl qm
          (.resp 200 (some ⟨some versions, tags⟩))
        = .notFound ("package " ++ pkg ++ "@" ++ ver))
    ∧ maxSatisfyingVersion ["1.0.0", "1.2.0", "2.0.0"] "^1" = some "1.2.0" := by
  refine ⟨?_, ?_, ?_, ?_, rfl⟩
  · intro tb hv
    simp [registryFlow, hv]
  · intro hv tv ht
    simp [registryFlow, hv, ht]
  · intro hv ht mv hm
    simp [registryFlow, hv, ht, hm]
  · intro hv ht hm
    simp [registryFlow, hv, ht, hm]

/-- C4 witness: versions 1.0.0 / 1.2.0 / 2.0.0 with no tags and token
`^1` redirect to the URL built from 1.2.0, filename and search
preserved. -/
theorem claim4_decision_order_witness :
    versC4.lookup "^1" = none
    ∧ ([] : List (String × String)).lookup "^1" = none
    ∧ maxSatisfyingVersion (versC4.map Prod.fst) "^1" = some "1.2.0"
    ∧ registryFlow defaultCfg defaultEnv (fun _ _ => .error "E") "history" "^1" "/x.js" "?q=1"
        "" "/history@^1/x.js" none (.resp 200 (some ⟨some versC4, []⟩))
      = .redirect ("" ++ createPackageURL "history" "1.2.0" "/x.js" "?q=1") 0 :=
  ⟨rfl, rfl, rfl,
    (claim4_decision_order defaultCfg defaultEnv (fun _ _ => .error "E") "history" "^1" "/x.js"
      "?q=1" "" "/history@^1/x.js" none versC4 []).2.2.1 rfl rfl "1.2.0" rfl⟩

/-- C8: with an empty filename the pipeline reads the manifest; a
non-empty query override absent from the manifest yields NotFound naming
that field, a present `main` field (or the default `index` when it is
absent) is resolved with the index fallback enabled, serving the resolved
file, reporting NotFound naming the main file, or propagating the
resolver's error. -/
theorem claim8_entry_point (cfg : Config) (env : ServeEnv)
    (pkg ver search baseUrl reqUrl : String)
    (data : String) (packageConfig : List (String × String))
    (hbb : cfg.bowerBundle ≠ "")
    (hread : env.readFile (joinP (joinP TmpDir (pkg ++ "-" ++ ver)) "package.json") = .ok data)
    (hparse : env.parseJSON data = .ok packageConfig) :
    (∀ q, q ≠ "" → packageConfig.lookup q = none →
      serveFilePart cfg env pkg ver "" search baseUrl reqUrl (some q)
        = .notFound ("field \"" ++ q ++ "\" in package.json of " ++ pkg ++ "@" ++ ver))
    ∧ (∀ mainFilename, packageConfig.lookup "main" = some mainFilename → mainFilename ≠ "" →
      serveFilePart cfg env pkg ver "" search baseUrl reqUrl none
        = match resolveFile env.fs (joinP (joinP TmpDir (pkg ++ "-" ++ ver)) mainFilename) true
          with
          | .error e => .serverError e
          | .ok none =>
            .notFound ("main file \"" ++ mainFilename ++ "\" in package " ++ pkg ++ "@" ++ ver)
          | .ok (some f) => .file f OneYear)
    ∧ (packageConfig.lookup "main" = none →
      serveFilePart cfg env pkg ver "" search baseUrl reqUrl none
        = match resolveFile env.fs (joinP (joinP TmpDir (pkg ++ "-" ++ ver)) "index") true with
          | .error e => .serverError e
          | .ok none =>
            .notFound ("main file \"index\" in package " ++ pkg ++ "@" ++ ver)
          | .ok (some f) => .file f OneYear) := by
  have hbb' : ("" : String) ≠ cfg.bowerBundle := fun h => hbb h.symm
  refine ⟨?_, ?_, ?_⟩
  · intro q hq hnone
    simp [serveFilePart, hbb', hread, hparse, hq, hnone]
  · intro mainFilename hmain hne
    simp [serveFilePart, hbb', hread, hparse, hmain, hne]
  · intro hmain
    simp [serveFilePart, hbb', hread, hparse, hmain]

/-- C8 witness: a manifest with `main = lib/foo` and only `lib/foo.js`
on disk serves `lib/foo.js` from the package root request. -/
theorem claim8_entry_point_witness :
    defaultCfg.bowerBundle ≠ ""
    ∧ envC8.readFile (joinP (joinP TmpDir ("p" ++ "-" ++ "1.0.0")) "package.json")
      = .ok "manifest"
    ∧ envC8.parseJSON "manifest" = .ok [("main", "lib/foo")]
    ∧ serveFilePart defaultCfg envC8 "p" "1.0.0" "" "" "" "/p@1.0.0" none
      = .file "/tmp/p-1.0.0/lib/foo.js" OneYear := by
  refine ⟨by decide, rfl, rfl, ?_⟩
  have h := (claim8_entry_point defaultCfg envC8 "p" "1.0.0" "" "" "/p@1.0.0" "manifest"
    [("main", "lib/foo")] (by decide) rfl rfl).2.1 "lib/foo" rfl (by decide)
  rw [h]
  rfl

/-- C9: a 404 from the registry yields NotFound naming the package in
quotes, and a token that is neither an exact version nor a tag nor a
satisfiable range yields NotFound naming package@range. -/
theorem claim9_notfound_names_subject (cfg : Config) (envPost : ServeEnv)
    (gp : String → String → Except String Unit)
    (pkg ver filename search baseUrl reqUrl : String) (qm : Option String)
    (jd : Option PackageInfo) (versions tags : List (String × String)) :
    (registryFlow cfg envPost gp pkg ver filename search baseUrl reqUrl qm (.resp 404 jd)
      = .notFound ("package \"" ++ pkg ++ "\""))
    ∧ (versions.lookup ver = none → tags.lookup ver = none →
      maxSatisfyingVersion (versions.map Prod.fst) ver = none →
      registryFlow cfg envPost gp pkg ver filename search baseUrl reqUrl qm
          (.resp 200 (some ⟨some versions, tags⟩))
        = .notFound ("package " ++ pkg ++ "@" ++ ver)) := by
  constructor
  · simp [registryFlow]
  · intro hv ht hm
    simp [registryFlow, hv, ht, hm]

/-- C9 witness: an unknown package yields NotFound naming it, and the
unsatisfiable token `zzz` yields NotFound naming `history@zzz`. -/
theorem claim9_notfound_names_subject_witness :
    registryFlow defaultCfg defaultEnv (fun _ _ => .error "E") "unknownpkg" "1.0.0" "" "" ""
        "/unknownpkg@1.0.0" none (.resp 404 none)
      = .notFound ("package \"unknownpkg\"")
    ∧ registryFlow defaultCfg defaultEnv (fun _ _ => .error "E") "history" "zzz" "" "" ""
        "/history@zzz" none (.resp 200 (some ⟨some [("1.0.0", "t")], []⟩))
      = .notFound ("package history@zzz") :=
  ⟨(claim9_notfound_names_subject defaultCfg defaultEnv (fun _ _ => .error "E") "unknownpkg"
      "1.0.0" "" "" "" "/unknownpkg@1.0.0" none none [] []).1,
    (claim9_notfound_names_subject defaultCfg defaultEnv (fun _ _ => .error "E") "history"
      "zzz" "" "" "" "/history@zzz" none none [("1.0.0", "t")] []).2 rfl rfl rfl⟩

/-- C10: any stat failure on the cache directory's manifest — whatever
its error code, permission denied included — makes the Cache Gate report
"not cached", and the pipeline proceeds to the registry branch instead of
returning a server error for it. -/
theorem claim10_cache_gate_swallows_errors (cfg : Config) (envPre envPost : ServeEnv)
    (gp : String → String → Except String Unit) (reg : RegistryResult)
    (pkg ver filename search baseUrl reqUrl : String) (qm : Option String) (code : String)
    (herr : envPre.fs (joinP (joinP TmpDir (pkg ++ "-" ++ ver)) "package.json")
      = .error code) :
    checkLocalCache envPre.fs (joinP TmpDir (pkg ++ "-" ++ ver)) = false
    ∧ handleRequestParsed cfg envPre envPost gp reg pkg ver filename search baseUrl reqUrl qm
      = registryFlow cfg envPost gp pkg ver filename search baseUrl reqUrl qm reg := by
  have h1 : checkLocalCache envPre.fs (joinP TmpDir (pkg ++ "-" ++ ver)) = false := by
    rw [checkLocalCache, herr]
    rfl
  exact ⟨h1, by simp [handleRequestParsed, h1]⟩

/-- C10 witness: a permission-denied stat on the manifest is reported as
"not cached" and the request goes to the registry. -/
theorem claim10_cache_gate_swallows_errors_witness :
    envC10.fs (joinP (joinP TmpDir ("history" ++ "-" ++ "1.0.0")) "package.json")
      = .error "EACCES"
    ∧ checkLocalCache envC10.fs (joinP TmpDir ("history" ++ "-" ++ "1.0.0")) = false
    ∧ handleRequestParsed defaultCfg envC10 defaultEnv (fun _ _ => .error "E") (.resp 404 none)
        "history" "1.0.0" "" "" "" "/history@1.0.0" none
      = registryFlow defaultCfg defaultEnv (fun _ _ => .error "E") "history" "1.0.0" "" "" ""
          "/history@1.0.0" none (.resp 404 none) :=
  ⟨rfl,
    (claim10_cache_gate_swallows_errors defaultCfg envC10 defaultEnv (fun _ _ => .error "E")
      (.resp 404 none) "history" "1.0.0" "" "" "" "/history@1.0.0" none "EACCES" rfl).1,
    (claim10_cache_gate_swallows_errors defaultCfg envC10 defaultEnv (fun _ _ => .error "E")
      (.resp 404 none) "history" "1.0.0" "" "" "" "/history@1.0.0" none "EACCES" rfl).2⟩
